import Mathlib

/-!
Verification of the llamaneuro dashboard's cross-component coordination core.

The definitions below are a shallow embedding of the JavaScript source:

* `updateActionStates`, `considerTriggeringAction`, `handleNeuralClassification`,
  `handleNeuralFeatures`, `toggleResetActionStates` embed the Action-State
  Engine of `dashboard/js/neuro-llama.js`.
* `classificationToMovementBridge` embeds the classification-to-movement wiring
  of `dashboard/js/dashboard.js` (`initializeComponentIntegration`).
* `addDecodedPosition` embeds the decoder visualization trajectory buffer.
* `updateDecoderModelMetrics` embeds the decoder metrics recomputation pass.
* `generateRandomAttentionMatrix` embeds the attention-matrix generator of
  `dashboard/js/neural-signal-processor.js`.
* `runImpedanceCheck` embeds the completion step of the BCI status monitor's
  impedance check (`dashboard/js/bci-status.js`).

JavaScript numbers are modelled as exact rationals (`ℚ`); timestamps as `ℤ`;
`Math.random()` draws are passed in as explicit streams of rationals, with the
contract `0 ≤ r < 1` stated as a hypothesis where a property depends on it.
-/

/-- One entry of the `ACTION_VERBS` table of `neuro-llama.js`.  Fields that the
JavaScript object acquires lazily (`triggered`, `lastTriggered`) default to the
falsy values the code reads for them (`false`, `0` via `|| 0`). -/
structure ActionAcc where
  confidence : ℚ := 0
  direction : Option String := none
  active : Bool := false
  triggered : Bool := false
  lastTriggered : ℤ := 0
  deriving Repr, DecidableEq

/-- The five action accumulators, in the object-key order of `ACTION_VERBS`. -/
structure ActionVerbs where
  navigate : ActionAcc
  select : ActionAcc
  modify : ActionAcc
  create : ActionAcc
  delete : ActionAcc
  deriving Repr, DecidableEq

/-- Names of the five accumulators, used to iterate in object-key order. -/
inductive ActionName where
  | navigate | select | modify | create | delete
  deriving Repr, DecidableEq

def actionNames : List ActionName :=
  [.navigate, .select, .modify, .create, .delete]

def getAcc (v : ActionVerbs) : ActionName → ActionAcc
  | .navigate => v.navigate
  | .select => v.select
  | .modify => v.modify
  | .create => v.create
  | .delete => v.delete

def setAcc (v : ActionVerbs) : ActionName → ActionAcc → ActionVerbs
  | .navigate, a => { v with navigate := a }
  | .select, a => { v with select := a }
  | .modify, a => { v with modify := a }
  | .create, a => { v with create := a }
  | .delete, a => { v with delete := a }

/-- Apply `f` to every accumulator (the `for (const action in ACTION_VERBS)`
loops of `neuro-llama.js`). -/
def mapAccs (f : ActionAcc → ActionAcc) (v : ActionVerbs) : ActionVerbs :=
  { navigate := f v.navigate
    select := f v.select
    modify := f v.modify
    create := f v.create
    delete := f v.delete }

/-- `ACTION_VERBS[action].confidence *= 0.9` — the unconditional decay. -/
def decayAcc (a : ActionAcc) : ActionAcc :=
  { a with confidence := a.confidence * 0.9 }

/-- `ACTION_VERBS[action].confidence *= 0.8` — the extra decay of `case 'Rest'`. -/
def restDecayAcc (a : ActionAcc) : ActionAcc :=
  { a with confidence := a.confidence * 0.8 }

/-- `ACTION_VERBS[action].active = ACTION_VERBS[action].confidence > 0.6`. -/
def recomputeActive (a : ActionAcc) : ActionAcc :=
  { a with active := decide (a.confidence > 0.6) }

/-- `updateActionStates(classification, confidence)` of `neuro-llama.js`
(lines 364–413): decay every accumulator by ×0.9, route the classification
(the `switch`), then recompute `active` as `confidence > 0.6` for all five.
`classification = none` models the argument-less call (`switch(undefined)`
matches no case). -/
def updateActionStates (classification : Option String) (confidence : ℚ)
    (v0 : ActionVerbs) : ActionVerbs :=
  let v := mapAccs decayAcc v0
  let v :=
    if classification = some "Left Hand" then
      { v with navigate := { v.navigate with
          confidence := max v.navigate.confidence confidence
          direction := some "backward" } }
    else if classification = some "Right Hand" then
      { v with navigate := { v.navigate with
          confidence := max v.navigate.confidence confidence
          direction := some "forward" } }
    else if classification = some "Feet" then
      { v with modify := { v.modify with
          confidence := max v.modify.confidence confidence
          direction := some "decrease" } }
    else if classification = some "Tongue" then
      let v := { v with select := { v.select with
          confidence := max v.select.confidence confidence } }
      { v with modify := { v.modify with
          confidence := max v.modify.confidence (confidence * 0.8)
          direction := some "increase" } }
    else if classification = some "Rest" then
      mapAccs restDecayAcc v
    else v
  mapAccs recomputeActive v

/-- The initial `ACTION_VERBS` object: every confidence 0, nothing active. -/
def initialActionVerbs : ActionVerbs :=
  { navigate := { direction := none }
    select := {}
    modify := { direction := none }
    create := {}
    delete := {} }

/-- All five confidences are nonnegative (the data-model range `[0,1]`). -/
def accNonneg (v : ActionVerbs) : Prop :=
  0 ≤ v.navigate.confidence ∧ 0 ≤ v.select.confidence ∧
  0 ≤ v.modify.confidence ∧ 0 ≤ v.create.confidence ∧
  0 ≤ v.delete.confidence

instance (v : ActionVerbs) : Decidable (accNonneg v) := by
  unfold accNonneg; infer_instance

/-- `handleNeuralFeatures` of `neuro-llama.js` (lines 235–256): when neural
integration is inactive the event is ignored; otherwise, when the event
carries a `features` payload, `updateActionStates()` runs with no
classification argument (`switch(undefined)` matches no case; the unused
confidence argument is modelled as 0).  The payload's presence is modelled by
the boolean `hasFeatures` (the JS truthiness test
`event.detail && event.detail.features`). -/
def handleNeuralFeatures (active : Bool) (hasFeatures : Bool)
    (v : ActionVerbs) : ActionVerbs :=
  if active then
    (if hasFeatures then updateActionStates none 0 v else v)
  else v

/-- `neuroLLaMA.threshold` — the confidence threshold for neural triggers. -/
def threshold : ℚ := 0.75

/-- One step of the argmax loop of `considerTriggeringAction`: keep the
accumulator with the strictly highest confidence that is ≥ `threshold`. -/
def bestActionStep (v : ActionVerbs) (acc : Option ActionName × ℚ)
    (n : ActionName) : Option ActionName × ℚ :=
  let a := getAcc v n
  if a.confidence > acc.2 ∧ a.confidence ≥ threshold then (some n, a.confidence)
  else acc

/-- The accumulator `considerTriggeringAction` selects (object-key order,
starting from `highestConfidence = 0`, `actionToTrigger = null`). -/
def bestAction (v : ActionVerbs) : Option ActionName :=
  (actionNames.foldl (bestActionStep v) (none, 0)).1

/-- `considerTriggeringAction` of `neuro-llama.js` (lines 495–531): pick the
best accumulator; if one exists and `now - lastTriggered > 2000` (with
`lastTriggered || 0` for the never-triggered case), set `triggered := true`
and `lastTriggered := now`.  The boolean of the pair records whether a trigger
fired. -/
def considerTriggeringAction (v : ActionVerbs) (now : ℤ) :
    ActionVerbs × Bool :=
  match bestAction v with
  | none => (v, false)
  | some n =>
    let a := getAcc v n
    if now - a.lastTriggered > 2000 then
      (setAcc v n { a with triggered := true, lastTriggered := now }, true)
    else (v, false)

/-- `handleNeuralClassification` of `neuro-llama.js` (lines 261–286),
restricted to the accumulator state it mutates: ignore the event when
inactive; otherwise run `updateActionStates`, then, when the event confidence
reaches `threshold`, run `considerTriggeringAction`. -/
def handleNeuralClassification (active : Bool) (cls : String) (conf : ℚ)
    (now : ℤ) (v : ActionVerbs) : ActionVerbs × Bool :=
  if active then
    let v' := updateActionStates (some cls) conf v
    if conf ≥ threshold then considerTriggeringAction v' now else (v', false)
  else (v, false)

/-- The accumulator reset performed by `toggleNeuralIntegration`
(`neuro-llama.js` lines 746–750): `confidence := 0`, `active := false`,
`triggered := false` (direction and `lastTriggered` are left alone). -/
def toggleResetAcc (a : ActionAcc) : ActionAcc :=
  { a with confidence := 0, active := false, triggered := false }

def toggleResetActionStates (v : ActionVerbs) : ActionVerbs :=
  mapAccs toggleResetAcc v

/-- The events that drive the Action-State Engine's accumulator state. -/
inductive EngineEvent where
  | classification (cls : String) (conf : ℚ) (now : ℤ)
  | features (hasFeatures : Bool)
  | toggle
  deriving Repr

/-- Engine state: the `neuroLLaMA.active` flag plus the `ACTION_VERBS` table. -/
structure EngineState where
  active : Bool
  verbs : ActionVerbs
  deriving Repr

def initialEngineState : EngineState :=
  { active := false, verbs := initialActionVerbs }

def engineStep (s : EngineState) : EngineEvent → EngineState
  | .classification cls conf now =>
    { s with verbs := (handleNeuralClassification s.active cls conf now s.verbs).1 }
  | .features hasFeatures =>
    { s with verbs := handleNeuralFeatures s.active hasFeatures s.verbs }
  | .toggle =>
    { active := !s.active, verbs := toggleResetActionStates s.verbs }

def runEngine (events : List EngineEvent) : EngineState :=
  events.foldl engineStep initialEngineState

/-- Invariant of C2: each accumulator's `active` equals `confidence > 0.6`. -/
def actionInvariant (v : ActionVerbs) : Prop :=
  v.navigate.active = decide (v.navigate.confidence > 0.6) ∧
  v.select.active = decide (v.select.confidence > 0.6) ∧
  v.modify.active = decide (v.modify.confidence > 0.6) ∧
  v.create.active = decide (v.create.confidence > 0.6) ∧
  v.delete.active = decide (v.delete.confidence > 0.6)

/-- The accumulator the `updateActionStates` switch routes a triggering
classification to (the class→action table of `neuro-llama.js`). -/
def routedAction (cls : String) : ActionName :=
  if cls = "Left Hand" then .navigate
  else if cls = "Right Hand" then .navigate
  else if cls = "Feet" then .modify
  else .select

/-- A 2-D point of the decoder visualization (a JS `[x, y]` array). -/
abbrev Point : Type := ℚ × ℚ

/-- The decoder-visualization state touched by `addDecodedPosition`
(`currentDecoderData`'s five parallel arrays). -/
structure DecoderData where
  actual : List Point
  predicted : List Point
  timestamps : List ℚ
  velActual : List Point
  velPredicted : List Point
  deriving Repr, DecidableEq

def emptyDecoderData : DecoderData := ⟨[], [], [], [], []⟩

/-- The velocity pair pushed by `addDecodedPosition`: the provided pair when
both velocities are given (JS truthiness `actualVelocity && predictedVelocity`),
otherwise the finite difference with the previous point (division is exact
rational division; the guard ensures a previous point exists), otherwise
`[0,0]`. -/
def computedVelocities (d : DecoderData) (actual predicted : Point)
    (timestamp : ℚ) (vel : Option (Point × Point)) : Point × Point :=
  match vel with
  | some (va, vp) => (va, vp)
  | none =>
    if 1 < (d.actual ++ [actual]).length then
      let prevActual := d.actual.getLastD (0, 0)
      let prevPredicted := d.predicted.getLastD (0, 0)
      let prevTime := d.timestamps.getLastD 0
      let deltaTime := (timestamp - prevTime) / 1000
      (((actual.1 - prevActual.1) / deltaTime, (actual.2 - prevActual.2) / deltaTime),
       ((predicted.1 - prevPredicted.1) / deltaTime, (predicted.2 - prevPredicted.2) / deltaTime))
    else ((0, 0), (0, 0))

/-- `decoderVisualization.addDecodedPosition` (decoder visualization source
lines 270–316): push the new sample onto all five parallel arrays, then, if
the arrays now hold more than 100 points, `shift()` the oldest entry off each. -/
def addDecodedPosition (d : DecoderData) (actual predicted : Point)
    (timestamp : ℚ) (vel : Option (Point × Point)) : DecoderData :=
  let v := computedVelocities d actual predicted timestamp vel
  let actualL := d.actual ++ [actual]
  let predictedL := d.predicted ++ [predicted]
  let timestampsL := d.timestamps ++ [timestamp]
  let velActualL := d.velActual ++ [v.1]
  let velPredictedL := d.velPredicted ++ [v.2]
  if actualL.length > 100 then
    ⟨actualL.tail, predictedL.tail, timestampsL.tail, velActualL.tail, velPredictedL.tail⟩
  else
    ⟨actualL, predictedL, timestampsL, velActualL, velPredictedL⟩

/-- One `addDecodedPosition` call's arguments. -/
structure AddCall where
  actual : Point
  predicted : Point
  timestamp : ℚ
  vel : Option (Point × Point)
  deriving Repr, DecidableEq

def runAdds (calls : List AddCall) (d : DecoderData) : DecoderData :=
  calls.foldl (fun d c => addDecodedPosition d c.actual c.predicted c.timestamp c.vel) d

/-- The effect of one call on the `actual` array alone. -/
def pushBounded (l : List Point) (p : Point) : List Point :=
  if (l ++ [p]).length > 100 then (l ++ [p]).tail else l ++ [p]

/-- The classification→direction lookup of the classification-to-movement
bridge wired by `initializeComponentIntegration` (`dashboard.js` lines
975–1018): the `switch` over the event's class, `default` → `null`. -/
def classToDirection (classification : String) : Option String :=
  if classification = "Left Hand" then some "left"
  else if classification = "Right Hand" then some "right"
  else if classification = "Feet" then some "down"
  else if classification = "Tongue" then some "up"
  else none

/-- A `decoder:movement-request` payload. -/
structure MovementRequest where
  direction : String
  confidence : ℚ
  source : String
  deriving Repr, DecidableEq

/-- The body of the `processor:classification-updated` listener installed by
the Integration Glue: publish a `decoder:movement-request` exactly when the
class maps to a direction and `confidence > 0.65`; the payload carries the
direction, the incoming confidence unchanged, and source
`"neural-processor"`.  Returns the published payload, or `none` when nothing
is published. -/
def classificationToMovementBridge (classification : String) (confidence : ℚ) :
    Option MovementRequest :=
  match classToDirection classification with
  | some d => if confidence > 0.65 then some ⟨d, confidence, "neural-processor"⟩ else none
  | none => none

/-- The decoder baseline metrics vector of `updateDecoderModelMetrics`
(`dashboard.js` lines 391–472), with the `accuracy` and `noise` locals folded
into the record. -/
structure DecoderMetrics where
  accuracy : ℚ
  noise : ℚ
  mse : ℚ
  r2 : ℚ
  correlation : ℚ
  decodeTime : ℚ
  bitrate : ℚ
  deriving Repr, DecidableEq

def baseDecoderMetrics : DecoderMetrics :=
  { accuracy := 0.80, noise := 0.15, mse := 0.035, r2 := 0.75,
    correlation := 0.85, decodeTime := 5.0, bitrate := 120 }

/-- The per-model multiplicative adjustment (`switch(modelId)`). -/
def applyModelAdjustment (modelId : String) (m : DecoderMetrics) : DecoderMetrics :=
  if modelId = "model1" then
    { accuracy := m.accuracy * 1.05, noise := m.noise * 0.85, mse := m.mse * 0.8,
      r2 := m.r2 * 1.05, correlation := m.correlation * 1.05,
      decodeTime := m.decodeTime * 1.1, bitrate := m.bitrate * 1.05 }
  else if modelId = "model2" then
    { accuracy := m.accuracy * 0.9, noise := m.noise * 1.3, mse := m.mse * 1.5,
      r2 := m.r2 * 0.9, correlation := m.correlation * 0.95,
      decodeTime := m.decodeTime * 0.85, bitrate := m.bitrate * 0.85 }
  else if modelId = "model3" then
    { accuracy := m.accuracy * 1.12, noise := m.noise * 0.6, mse := m.mse * 0.65,
      r2 := m.r2 * 1.12, correlation := m.correlation * 1.1,
      decodeTime := m.decodeTime * 1.2, bitrate := m.bitrate * 1.15 }
  else m

/-- The per-trajectory multiplicative adjustment (`switch(trajectoryType)`;
`circular` and unknown types are the no-adjustment baseline). -/
def applyTrajectoryAdjustment (trajectoryType : String) (m : DecoderMetrics) :
    DecoderMetrics :=
  if trajectoryType = "figure8" then
    { accuracy := m.accuracy * 0.92, noise := m.noise * 1.2, mse := m.mse * 1.3,
      r2 := m.r2 * 0.92, correlation := m.correlation * 0.95,
      decodeTime := m.decodeTime, bitrate := m.bitrate * 0.95 }
  else if trajectoryType = "reaching" then
    { accuracy := m.accuracy * 1.08, noise := m.noise * 0.8, mse := m.mse * 0.7,
      r2 := m.r2 * 1.05, correlation := m.correlation * 1.05,
      decodeTime := m.decodeTime, bitrate := m.bitrate * 1.1 }
  else m

/-- The final clamping step ("Keep metrics in reasonable ranges"). -/
def clampMetrics (m : DecoderMetrics) : DecoderMetrics :=
  { accuracy := min 0.98 (max 0.5 m.accuracy),
    noise := m.noise,
    mse := max 0.01 m.mse,
    r2 := min 0.98 (max 0.4 m.r2),
    correlation := min 0.99 (max 0.5 m.correlation),
    decodeTime := max 2.0 m.decodeTime,
    bitrate := max 50 m.bitrate }

/-- `updateDecoderModelMetrics(modelId, trajectoryType)`: baseline, model
adjustment, trajectory adjustment, clamp. -/
def updateDecoderModelMetrics (modelId trajectoryType : String) : DecoderMetrics :=
  clampMetrics
    (applyTrajectoryAdjustment trajectoryType
      (applyModelAdjustment modelId baseDecoderMetrics))

/-- `sequenceLength = 16` — "Typical transformer sequence length". -/
def sequenceLength : ℕ := 16

/-- `row.reduce((a, b) => a + b, 0)` of `neural-signal-processor.js`. -/
def jsReduceAdd (row : List ℚ) : ℚ := row.foldl (· + ·) 0

/-- `row.map(v => v / sum)` — the per-row softmax-style normalization. -/
def normalizeRow (row : List ℚ) : List ℚ :=
  row.map (fun v => v / jsReduceAdd row)

/-- `generateRandomAttentionMatrix(numHeads)` (`neural-signal-processor.js`
lines 686–700): for each head, a 16×16 matrix of `Math.random()` draws with
each row normalized by its sum.  The draws are supplied as the stream
`rand head row col`; `Math.random()`'s contract is `0 ≤ rand … < 1`. -/
def generateRandomAttentionMatrix (rand : ℕ → ℕ → ℕ → ℚ) (numHeads : ℕ) :
    List (List (List ℚ)) :=
  (List.range numHeads).map fun h =>
    (List.range sequenceLength).map fun i =>
      normalizeRow ((List.range sequenceLength).map fun j => rand h i j)

/-- Every row of every head's matrix sums (by the JS `reduce`) to 1. -/
def rowStochastic (tensor : List (List (List ℚ))) : Prop :=
  ∀ mat ∈ tensor, ∀ row ∈ mat, jsReduceAdd row = 1

/-- One electrode of the BCI status monitor (`bci-status.js`). -/
structure Electrode where
  name : String
  impedance : ℚ
  signal : ℚ
  status : String
  deriving Repr, DecidableEq

/-- The initial `bciStatus.electrodes` table (`bci-status.js` lines 8–26). -/
def initialElectrodes : List Electrode :=
  [⟨"Fp1", 12.4, 95, "good"⟩, ⟨"Fp2", 8.7, 98, "good"⟩, ⟨"F3", 15.2, 92, "good"⟩,
   ⟨"F4", 10.1, 97, "good"⟩, ⟨"C3", 7.8, 99, "good"⟩, ⟨"C4", 11.3, 96, "good"⟩,
   ⟨"P3", 14.6, 91, "good"⟩, ⟨"P4", 9.2, 94, "good"⟩, ⟨"O1", 18.5, 85, "poor"⟩,
   ⟨"O2", 22.7, 78, "poor"⟩, ⟨"T3", 13.4, 93, "good"⟩, ⟨"T4", 16.8, 89, "moderate"⟩,
   ⟨"T5", 19.3, 82, "poor"⟩, ⟨"T6", 17.6, 87, "moderate"⟩, ⟨"Fz", 6.5, 100, "good"⟩,
   ⟨"Cz", 5.9, 100, "good"⟩, ⟨"Pz", 9.8, 97, "good"⟩]

/-- One electrode's update in the completion step of `runImpedanceCheck`
(`bci-status.js` lines 85–102): clamp the randomly walked impedance into
`[5, 40]`, then derive status and signal from the new impedance.  `randImp`
and `randSig` are the electrode's two `Math.random()` draws. -/
def impedanceCheckElectrode (e : Electrode) (randImp randSig : ℚ) : Electrode :=
  let imp := max 5 (min 40 (e.impedance + (randImp - 0.5) * 10))
  if imp < 10 then
    { e with impedance := imp, status := "good", signal := 95 + randSig * 5 }
  else if imp < 15 then
    { e with impedance := imp, status := "good", signal := 90 + randSig * 5 }
  else if imp < 20 then
    { e with impedance := imp, status := "moderate", signal := 80 + randSig * 10 }
  else
    { e with impedance := imp, status := "poor", signal := 70 + randSig * 10 }

/-- The completion step of `runImpedanceCheck` over the whole electrode
table; `rand i` yields the i-th electrode's two draws. -/
def runImpedanceCheck (rand : ℕ → ℚ × ℚ) (es : List Electrode) : List Electrode :=
  es.enum.map fun ie => impedanceCheckElectrode ie.2 (rand ie.1).1 (rand ie.1).2

/-- The specification's status threshold table: impedance < 15 → good,
< 20 → moderate, otherwise poor. -/
def statusFromImpedance (imp : ℚ) : String :=
  if imp < 15 then "good" else if imp < 20 then "moderate" else "poor"

@[simp] lemma getAcc_navigate (v : ActionVerbs) : getAcc v .navigate = v.navigate := rfl

@[simp] lemma getAcc_select (v : ActionVerbs) : getAcc v .select = v.select := rfl

@[simp] lemma getAcc_modify (v : ActionVerbs) : getAcc v .modify = v.modify := rfl

@[simp] lemma getAcc_create (v : ActionVerbs) : getAcc v .create = v.create := rfl

@[simp] lemma getAcc_delete (v : ActionVerbs) : getAcc v .delete = v.delete := rfl

/-- C1: processing a `Rest` classification multiplies every accumulator's
confidence by 0.9 (global decay) and then by 0.8 (the `Rest` branch), so each
of the five confidences afterwards is at most the prior value ×0.9×0.8, and —
the prior confidences being nonnegative — is never increased. -/
theorem rest_double_decay (v : ActionVerbs) (conf : ℚ) (hnn : accNonneg v) :
    (((updateActionStates (some "Rest") conf v).navigate.confidence ≤
        v.navigate.confidence * 0.9 * 0.8 ∧
      (updateActionStates (some "Rest") conf v).navigate.confidence ≤
        v.navigate.confidence) ∧
     ((updateActionStates (some "Rest") conf v).select.confidence ≤
        v.select.confidence * 0.9 * 0.8 ∧
      (updateActionStates (some "Rest") conf v).select.confidence ≤
        v.select.confidence) ∧
     ((updateActionStates (some "Rest") conf v).modify.confidence ≤
        v.modify.confidence * 0.9 * 0.8 ∧
      (updateActionStates (some "Rest") conf v).modify.confidence ≤
        v.modify.confidence) ∧
     ((updateActionStates (some "Rest") conf v).create.confidence ≤
        v.create.confidence * 0.9 * 0.8 ∧
      (updateActionStates (some "Rest") conf v).create.confidence ≤
        v.create.confidence) ∧
     ((updateActionStates (some "Rest") conf v).delete.confidence ≤
        v.delete.confidence * 0.9 * 0.8 ∧
      (updateActionStates (some "Rest") conf v).delete.confidence ≤
        v.delete.confidence)) := by
  obtain ⟨h1, h2, h3, h4, h5⟩ := hnn
  simp only [updateActionStates, mapAccs, decayAcc, restDecayAcc, recomputeActive,
    Option.some.injEq, String.reduceEq, if_false, if_true]
  refine ⟨⟨le_refl _, ?_⟩, ⟨le_refl _, ?_⟩, ⟨le_refl _, ?_⟩,
    ⟨le_refl _, ?_⟩, ⟨le_refl _, ?_⟩⟩ <;> nlinarith

/-- Witness for `rest_double_decay` at the initial accumulator table. -/
theorem rest_double_decay_witness :
    accNonneg initialActionVerbs ∧
    (((updateActionStates (some "Rest") 0.5 initialActionVerbs).navigate.confidence ≤
        initialActionVerbs.navigate.confidence * 0.9 * 0.8 ∧
      (updateActionStates (some "Rest") 0.5 initialActionVerbs).navigate.confidence ≤
        initialActionVerbs.navigate.confidence) ∧
     ((updateActionStates (some "Rest") 0.5 initialActionVerbs).select.confidence ≤
        initialActionVerbs.select.confidence * 0.9 * 0.8 ∧
      (updateActionStates (some "Rest") 0.5 initialActionVerbs).select.confidence ≤
        initialActionVerbs.select.confidence) ∧
     ((updateActionStates (some "Rest") 0.5 initialActionVerbs).modify.confidence ≤
        initialActionVerbs.modify.confidence * 0.9 * 0.8 ∧
      (updateActionStates (some "Rest") 0.5 initialActionVerbs).modify.confidence ≤
        initialActionVerbs.modify.confidence) ∧
     ((updateActionStates (some "Rest") 0.5 initialActionVerbs).create.confidence ≤
        initialActionVerbs.create.confidence * 0.9 * 0.8 ∧
      (updateActionStates (some "Rest") 0.5 initialActionVerbs).create.confidence ≤
        initialActionVerbs.create.confidence) ∧
     ((updateActionStates (some "Rest") 0.5 initialActionVerbs).delete.confidence ≤
        initialActionVerbs.delete.confidence * 0.9 * 0.8 ∧
      (updateActionStates (some "Rest") 0.5 initialActionVerbs).delete.confidence ≤
        initialActionVerbs.delete.confidence)) :=
  ⟨by decide, rest_double_decay initialActionVerbs 0.5 (by decide)⟩

/-- C4: a `Right Hand` classification with confidence 0.9 leaves the
`navigate` accumulator at confidence `max (prior × 0.9) 0.9 ≥ 0.9`, with
direction `forward` and `active = true`, for any prior accumulator state; the
other accumulators are exactly decayed by ×0.9. -/
theorem right_hand_routing (v : ActionVerbs) :
    0.9 ≤ (updateActionStates (some "Right Hand") 0.9 v).navigate.confidence ∧
    (updateActionStates (some "Right Hand") 0.9 v).navigate.direction =
      some "forward" ∧
    (updateActionStates (some "Right Hand") 0.9 v).navigate.active = true ∧
    (updateActionStates (some "Right Hand") 0.9 v).navigate.confidence =
      max (v.navigate.confidence * 0.9) 0.9 ∧
    v.navigate.confidence * 0.9 ≤
      (updateActionStates (some "Right Hand") 0.9 v).navigate.confidence ∧
    (updateActionStates (some "Right Hand") 0.9 v).select.confidence =
      v.select.confidence * 0.9 ∧
    (updateActionStates (some "Right Hand") 0.9 v).modify.confidence =
      v.modify.confidence * 0.9 ∧
    (updateActionStates (some "Right Hand") 0.9 v).create.confidence =
      v.create.confidence * 0.9 ∧
    (updateActionStates (some "Right Hand") 0.9 v).delete.confidence =
      v.delete.confidence * 0.9 := by
  simp only [updateActionStates, mapAccs, decayAcc, recomputeActive,
    Option.some.injEq, String.reduceEq, if_false, if_true]
  have h : (0.6 : ℚ) < max (v.navigate.confidence * 0.9) 0.9 :=
    lt_of_lt_of_le (by norm_num) (le_max_right _ _)
  refine ⟨le_max_right _ _, trivial, by simp [h], trivial, le_max_left _ _,
    trivial, trivial, trivial, trivial⟩

lemma updateActionStates_invariant (c : Option String) (conf : ℚ)
    (v : ActionVerbs) : actionInvariant (updateActionStates c conf v) := by
  unfold updateActionStates
  split_ifs <;>
    simp [mapAccs, recomputeActive, decayAcc, restDecayAcc, actionInvariant]

lemma considerTriggeringAction_invariant (v : ActionVerbs) (now : ℤ)
    (h : actionInvariant v) :
    actionInvariant (considerTriggeringAction v now).1 := by
  unfold considerTriggeringAction
  cases hb : bestAction v with
  | none => simpa using h
  | some n =>
    simp only []
    split_ifs with ht
    · cases n <;> simp_all [setAcc, getAcc, actionInvariant]
    · simpa using h

lemma toggleReset_invariant (v : ActionVerbs) :
    actionInvariant (toggleResetActionStates v) := by
  norm_num [toggleResetActionStates, mapAccs, toggleResetAcc, actionInvariant]

lemma engineStep_invariant (s : EngineState) (e : EngineEvent)
    (h : actionInvariant s.verbs) : actionInvariant (engineStep s e).verbs := by
  cases e with
  | classification cls conf now =>
    simp only [engineStep, handleNeuralClassification]
    split_ifs
    · exact considerTriggeringAction_invariant _ _
        (updateActionStates_invariant _ _ _)
    · exact updateActionStates_invariant _ _ _
    · exact h
  | features hasFeatures =>
    simp only [engineStep, handleNeuralFeatures]
    split_ifs
    · exact updateActionStates_invariant _ _ _
    · exact h
    · exact h
  | toggle => exact toggleReset_invariant _

lemma runEngine_invariant_aux (events : List EngineEvent) (s : EngineState)
    (h : actionInvariant s.verbs) :
    actionInvariant (events.foldl engineStep s).verbs := by
  induction events generalizing s with
  | nil => exact h
  | cons e es ih => exact ih _ (engineStep_invariant s e h)

/-- C2: `active = (confidence > 0.6)` holds of every accumulator in the
initial `ACTION_VERBS` table and after any sequence of engine events
(classification updates, feature updates, enable/disable toggles), so no
reachable state pairs `active = true` with `confidence ≤ 0.6` or vice versa. -/
theorem active_iff_confidence_invariant :
    actionInvariant initialEngineState.verbs ∧
    ∀ events : List EngineEvent, actionInvariant (runEngine events).verbs := by
  constructor
  · norm_num [initialEngineState, initialActionVerbs, actionInvariant]
  · intro events
    exact runEngine_invariant_aux events initialEngineState
      (by norm_num [initialEngineState, initialActionVerbs, actionInvariant])

/-- C10: while integration is active, a features-extracted delivery (payload
present) runs the accumulator update with no classification: every
confidence is multiplied by exactly 0.9 (no boost) and `active` is recomputed
from the decayed confidence; direction, `triggered` and `lastTriggered` are
untouched. -/
theorem features_event_pure_decay (v : ActionVerbs) :
    ((handleNeuralFeatures true true v).navigate.confidence =
       v.navigate.confidence * 0.9 ∧
     (handleNeuralFeatures true true v).select.confidence =
       v.select.confidence * 0.9 ∧
     (handleNeuralFeatures true true v).modify.confidence =
       v.modify.confidence * 0.9 ∧
     (handleNeuralFeatures true true v).create.confidence =
       v.create.confidence * 0.9 ∧
     (handleNeuralFeatures true true v).delete.confidence =
       v.delete.confidence * 0.9) ∧
    ((handleNeuralFeatures true true v).navigate.active =
       decide (v.navigate.confidence * 0.9 > 0.6) ∧
     (handleNeuralFeatures true true v).select.active =
       decide (v.select.confidence * 0.9 > 0.6) ∧
     (handleNeuralFeatures true true v).modify.active =
       decide (v.modify.confidence * 0.9 > 0.6) ∧
     (handleNeuralFeatures true true v).create.active =
       decide (v.create.confidence * 0.9 > 0.6) ∧
     (handleNeuralFeatures true true v).delete.active =
       decide (v.delete.confidence * 0.9 > 0.6)) ∧
    ((handleNeuralFeatures true true v).navigate.direction =
       v.navigate.direction ∧
     (handleNeuralFeatures true true v).navigate.triggered =
       v.navigate.triggered ∧
     (handleNeuralFeatures true true v).navigate.lastTriggered =
       v.navigate.lastTriggered) := by
  simp [handleNeuralFeatures, updateActionStates, mapAccs, decayAcc,
    recomputeActive]

lemma foldl_bestActionStep_const (v : ActionVerbs) (acc : Option ActionName × ℚ)
    (l : List ActionName) (h : ∀ m ∈ l, (getAcc v m).confidence ≤ acc.2) :
    l.foldl (bestActionStep v) acc = acc := by
  induction l with
  | nil => rfl
  | cons m l ih =>
    have hm : ¬ ((getAcc v m).confidence > acc.2 ∧ (getAcc v m).confidence ≥ threshold) := by
      push_neg
      intro hgt
      exact absurd hgt (not_lt.mpr (h m (List.mem_cons_self m l)))
    simp only [List.foldl, bestActionStep, hm, if_false]
    exact ih fun m hm' => h m (List.mem_cons_of_mem _ hm')

lemma foldl_bestActionStep_dominant (v : ActionVerbs) (n : ActionName)
    (l : List ActionName) (hthr : threshold ≤ (getAcc v n).confidence)
    (hmem : n ∈ l)
    (hdom : ∀ m, m ≠ n → (getAcc v m).confidence < (getAcc v n).confidence) :
    ∀ acc : Option ActionName × ℚ, acc.2 < (getAcc v n).confidence →
      l.foldl (bestActionStep v) acc = (some n, (getAcc v n).confidence) := by
  induction l with
  | nil => exact absurd hmem (List.not_mem_nil n)
  | cons m l ih =>
    intro acc hacc
    by_cases hmn : m = n
    · subst hmn
      have hc : (getAcc v m).confidence > acc.2 ∧ (getAcc v m).confidence ≥ threshold :=
        ⟨hacc, hthr⟩
      simp only [List.foldl, bestActionStep, hc, if_true]
      exact foldl_bestActionStep_const v _ l
        (fun m' _ => by
          by_cases h' : m' = m
          · subst h'; exact le_refl _
          · exact le_of_lt (hdom m' h'))
    · have hmem' : n ∈ l := by
        cases hmem with
        | head => exact absurd rfl hmn
        | tail _ h => exact h
      simp only [List.foldl, bestActionStep]
      split_ifs with hc
      · exact ih hmem' _ (hdom m hmn)
      · exact ih hmem' _ hacc

lemma bestAction_dominant (v : ActionVerbs) (n : ActionName)
    (hthr : threshold ≤ (getAcc v n).confidence)
    (hpos : 0 < (getAcc v n).confidence)
    (hdom : ∀ m, m ≠ n → (getAcc v m).confidence < (getAcc v n).confidence) :
    bestAction v = some n := by
  have hmem : n ∈ actionNames := by cases n <;> simp [actionNames]
  rw [bestAction, foldl_bestActionStep_dominant v n actionNames hthr hmem hdom (none, 0) hpos]

lemma updateActionStates_rightHand (c : ℚ) (v : ActionVerbs) :
    updateActionStates (some "Right Hand") c v =
      { navigate := { confidence := v.navigate.confidence * 0.9 ⊔ c,
                      direction := some "forward",
                      active := decide (v.navigate.confidence * 0.9 ⊔ c > 0.6),
                      triggered := v.navigate.triggered,
                      lastTriggered := v.navigate.lastTriggered },
        select := { confidence := v.select.confidence * 0.9,
                    direction := v.select.direction,
                    active := decide (v.select.confidence * 0.9 > 0.6),
                    triggered := v.select.triggered,
                    lastTriggered := v.select.lastTriggered },
        modify := { confidence := v.modify.confidence * 0.9,
                    direction := v.modify.direction,
                    active := decide (v.modify.confidence * 0.9 > 0.6),
                    triggered := v.modify.triggered,
                    lastTriggered := v.modify.lastTriggered },
        create := { confidence := v.create.confidence * 0.9,
                    direction := v.create.direction,
                    active := decide (v.create.confidence * 0.9 > 0.6),
                    triggered := v.create.triggered,
                    lastTriggered := v.create.lastTriggered },
        delete := { confidence := v.delete.confidence * 0.9,
                    direction := v.delete.direction,
                    active := decide (v.delete.confidence * 0.9 > 0.6),
                    triggered := v.delete.triggered,
                    lastTriggered := v.delete.lastTriggered } } := by
  simp [updateActionStates, mapAccs, decayAcc, recomputeActive]

lemma considerTriggeringAction_spec (v : ActionVerbs) (now : ℤ) (n : ActionName)
    (hb : bestAction v = some n) :
    considerTriggeringAction v now =
      if now - (getAcc v n).lastTriggered > 2000 then
        (setAcc v n { getAcc v n with triggered := true, lastTriggered := now }, true)
      else (v, false) := by
  unfold considerTriggeringAction
  rw [hb]

lemma debounce_run_rh (c1 c2 : ℚ) (t1 t2 : ℤ)
    (hc1 : threshold ≤ c1) (hc2 : threshold ≤ c2)
    (ht1 : 2000 < t1) (ht12 : t1 < t2) :
    (handleNeuralClassification true "Right Hand" c1 t1 initialActionVerbs).2 = true ∧
    (getAcc (handleNeuralClassification true "Right Hand" c1 t1 initialActionVerbs).1
      ActionName.navigate).triggered = true ∧
    (getAcc (handleNeuralClassification true "Right Hand" c1 t1 initialActionVerbs).1
      ActionName.navigate).lastTriggered = t1 ∧
    ((handleNeuralClassification true "Right Hand" c2 t2
        (handleNeuralClassification true "Right Hand" c1 t1 initialActionVerbs).1).2 = true
      ↔ 2000 < t2 - t1) := by
  have hth : threshold = 0.75 := rfl
  have hc1p : (0:ℚ) < c1 := by rw [hth] at hc1; linarith
  have hc2p : (0:ℚ) < c2 := by rw [hth] at hc2; linarith
  have h01 : (0:ℚ) * 0.9 ⊔ c1 = c1 := by
    rw [zero_mul]; exact sup_eq_right.mpr (le_of_lt hc1p)
  -- first event: the state after updateActionStates
  set u1 := updateActionStates (some "Right Hand") c1 initialActionVerbs with hu1def
  have hnavc1 : u1.navigate.confidence = c1 := by
    rw [hu1def, updateActionStates_rightHand]
    show initialActionVerbs.navigate.confidence * 0.9 ⊔ c1 = c1
    rw [show initialActionVerbs.navigate.confidence = 0 from rfl, h01]
  have hnavlt1 : u1.navigate.lastTriggered = 0 := by
    rw [hu1def, updateActionStates_rightHand]; rfl
  have hoth1 : ∀ m : ActionName, m ≠ ActionName.navigate →
      (getAcc u1 m).confidence = 0 := by
    intro m hm
    rw [hu1def, updateActionStates_rightHand]
    cases m with
    | navigate => exact absurd rfl hm
    | select => show initialActionVerbs.select.confidence * 0.9 = 0; norm_num [initialActionVerbs]
    | modify => show initialActionVerbs.modify.confidence * 0.9 = 0; norm_num [initialActionVerbs]
    | create => show initialActionVerbs.create.confidence * 0.9 = 0; norm_num [initialActionVerbs]
    | delete => show initialActionVerbs.delete.confidence * 0.9 = 0; norm_num [initialActionVerbs]
  have hb1 : bestAction u1 = some ActionName.navigate := by
    apply bestAction_dominant
    · show threshold ≤ u1.navigate.confidence
      rw [hnavc1]; exact hc1
    · show (0:ℚ) < u1.navigate.confidence
      rw [hnavc1]; exact hc1p
    · intro m hm
      have := hoth1 m hm
      show (getAcc u1 m).confidence < u1.navigate.confidence
      rw [this, hnavc1]; exact hc1p
  have hfire1 : t1 - (getAcc u1 ActionName.navigate).lastTriggered > 2000 := by
    show t1 - u1.navigate.lastTriggered > 2000
    rw [hnavlt1]; omega
  have hstep1 : handleNeuralClassification true "Right Hand" c1 t1 initialActionVerbs =
      (setAcc u1 ActionName.navigate
        { getAcc u1 ActionName.navigate with triggered := true, lastTriggered := t1 },
       true) := by
    rw [handleNeuralClassification, if_pos rfl]
    simp only [hc1, ite_true, ← hu1def]
    rw [considerTriggeringAction_spec _ _ _ hb1, if_pos hfire1]
  -- the state after the first trigger
  set w1 := setAcc u1 ActionName.navigate
    { getAcc u1 ActionName.navigate with triggered := true, lastTriggered := t1 } with hw1def
  have hw1nav : w1.navigate.confidence = c1 ∧ w1.navigate.lastTriggered = t1 ∧
      w1.navigate.triggered = true := by
    rw [hw1def]
    exact ⟨hnavc1, rfl, rfl⟩
  have hw1oth : w1.select.confidence = 0 ∧ w1.modify.confidence = 0 ∧
      w1.create.confidence = 0 ∧ w1.delete.confidence = 0 := by
    rw [hw1def]
    simp only [setAcc]
    exact ⟨hoth1 .select (by simp), hoth1 .modify (by simp),
      hoth1 .create (by simp), hoth1 .delete (by simp)⟩
  -- second event
  have hsup2 : threshold ≤ w1.navigate.confidence * 0.9 ⊔ c2 := le_trans hc2 le_sup_right
  have hsup2p : (0:ℚ) < w1.navigate.confidence * 0.9 ⊔ c2 := lt_of_lt_of_le hc2p le_sup_right
  set u2 := updateActionStates (some "Right Hand") c2 w1 with hu2def
  have hnavc2 : u2.navigate.confidence = w1.navigate.confidence * 0.9 ⊔ c2 := by
    rw [hu2def, updateActionStates_rightHand]
  have hnavlt2 : u2.navigate.lastTriggered = t1 := by
    rw [hu2def, updateActionStates_rightHand]
    show w1.navigate.lastTriggered = t1
    exact hw1nav.2.1
  have hoth2 : ∀ m : ActionName, m ≠ ActionName.navigate →
      (getAcc u2 m).confidence = 0 := by
    intro m hm
    rw [hu2def, updateActionStates_rightHand]
    cases m with
    | navigate => exact absurd rfl hm
    | select => show w1.select.confidence * 0.9 = 0; rw [hw1oth.1, zero_mul]
    | modify => show w1.modify.confidence * 0.9 = 0; rw [hw1oth.2.1, zero_mul]
    | create => show w1.create.confidence * 0.9 = 0; rw [hw1oth.2.2.1, zero_mul]
    | delete => show w1.delete.confidence * 0.9 = 0; rw [hw1oth.2.2.2, zero_mul]
  have hb2 : bestAction u2 = some ActionName.navigate := by
    apply bestAction_dominant
    · show threshold ≤ u2.navigate.confidence
      rw [hnavc2]; exact hsup2
    · show (0:ℚ) < u2.navigate.confidence
      rw [hnavc2]; exact hsup2p
    · intro m hm
      have := hoth2 m hm
      show (getAcc u2 m).confidence < u2.navigate.confidence
      rw [this, hnavc2]; exact hsup2p
  refine ⟨by rw [hstep1], ?_, ?_, ?_⟩
  · rw [hstep1]
    show ({ getAcc u1 ActionName.navigate with
        triggered := true, lastTriggered := t1} : ActionAcc).triggered = true
    rfl
  · rw [hstep1]
    show ({ getAcc u1 ActionName.navigate with
        triggered := true, lastTriggered := t1} : ActionAcc).lastTriggered = t1
    rfl
  · rw [hstep1]
    show (handleNeuralClassification true "Right Hand" c2 t2 w1).2 = true ↔ 2000 < t2 - t1
    rw [handleNeuralClassification, if_pos rfl]
    simp only [hc2, ite_true, ← hu2def]
    rw [considerTriggeringAction_spec _ _ _ hb2]
    constructor
    · intro hfired
      by_contra hlt
      rw [if_neg (by simp only [getAcc_navigate]; rw [hnavlt2]; omega)] at hfired
      exact Bool.false_ne_true hfired
    · intro hlt
      rw [if_pos (by simp only [getAcc_navigate]; rw [hnavlt2]; omega)]

lemma updateActionStates_leftHand (c : ℚ) (v : ActionVerbs) :
    updateActionStates (some "Left Hand") c v =
      { navigate := { confidence := v.navigate.confidence * 0.9 ⊔ c,
                      direction := some "backward",
                      active := decide (v.navigate.confidence * 0.9 ⊔ c > 0.6),
                      triggered := v.navigate.triggered,
                      lastTriggered := v.navigate.lastTriggered },
        select := { confidence := v.select.confidence * 0.9,
                    direction := v.select.direction,
                    active := decide (v.select.confidence * 0.9 > 0.6),
                    triggered := v.select.triggered,
                    lastTriggered := v.select.lastTriggered },
        modify := { confidence := v.modify.confidence * 0.9,
                    direction := v.modify.direction,
                    active := decide (v.modify.confidence * 0.9 > 0.6),
                    triggered := v.modify.triggered,
                    lastTriggered := v.modify.lastTriggered },
        create := { confidence := v.create.confidence * 0.9,
                    direction := v.create.direction,
                    active := decide (v.create.confidence * 0.9 > 0.6),
                    triggered := v.create.triggered,
                    lastTriggered := v.create.lastTriggered },
        delete := { confidence := v.delete.confidence * 0.9,
                    direction := v.delete.direction,
                    active := decide (v.delete.confidence * 0.9 > 0.6),
                    triggered := v.delete.triggered,
                    lastTriggered := v.delete.lastTriggered } } := by
  simp [updateActionStates, mapAccs, decayAcc, recomputeActive]

lemma updateActionStates_feet (c : ℚ) (v : ActionVerbs) :
    updateActionStates (some "Feet") c v =
      { navigate := { confidence := v.navigate.confidence * 0.9,
                      direction := v.navigate.direction,
                      active := decide (v.navigate.confidence * 0.9 > 0.6),
                      triggered := v.navigate.triggered,
                      lastTriggered := v.navigate.lastTriggered },
        select := { confidence := v.select.confidence * 0.9,
                    direction := v.select.direction,
                    active := decide (v.select.confidence * 0.9 > 0.6),
                    triggered := v.select.triggered,
                    lastTriggered := v.select.lastTriggered },
        modify := { confidence := v.modify.confidence * 0.9 ⊔ c,
                    direction := some "decrease",
                    active := decide (v.modify.confidence * 0.9 ⊔ c > 0.6),
                    triggered := v.modify.triggered,
                    lastTriggered := v.modify.lastTriggered },
        create := { confidence := v.create.confidence * 0.9,
                    direction := v.create.direction,
                    active := decide (v.create.confidence * 0.9 > 0.6),
                    triggered := v.create.triggered,
                    lastTriggered := v.create.lastTriggered },
        delete := { confidence := v.delete.confidence * 0.9,
                    direction := v.delete.direction,
                    active := decide (v.delete.confidence * 0.9 > 0.6),
                    triggered := v.delete.triggered,
                    lastTriggered := v.delete.lastTriggered } } := by
  simp [updateActionStates, mapAccs, decayAcc, recomputeActive]

lemma updateActionStates_tongue (c : ℚ) (v : ActionVerbs) :
    updateActionStates (some "Tongue") c v =
      { navigate := { confidence := v.navigate.confidence * 0.9,
                      direction := v.navigate.direction,
                      active := decide (v.navigate.confidence * 0.9 > 0.6),
                      triggered := v.navigate.triggered,
                      lastTriggered := v.navigate.lastTriggered },
        select := { confidence := v.select.confidence * 0.9 ⊔ c,
                    direction := v.select.direction,
                    active := decide (v.select.confidence * 0.9 ⊔ c > 0.6),
                    triggered := v.select.triggered,
                    lastTriggered := v.select.lastTriggered },
        modify := { confidence := v.modify.confidence * 0.9 ⊔ c * 0.8,
                    direction := some "increase",
                    active := decide (v.modify.confidence * 0.9 ⊔ c * 0.8 > 0.6),
                    triggered := v.modify.triggered,
                    lastTriggered := v.modify.lastTriggered },
        create := { confidence := v.create.confidence * 0.9,
                    direction := v.create.direction,
                    active := decide (v.create.confidence * 0.9 > 0.6),
                    triggered := v.create.triggered,
                    lastTriggered := v.create.lastTriggered },
        delete := { confidence := v.delete.confidence * 0.9,
                    direction := v.delete.direction,
                    active := decide (v.delete.confidence * 0.9 > 0.6),
                    triggered := v.delete.triggered,
                    lastTriggered := v.delete.lastTriggered } } := by
  simp [updateActionStates, mapAccs, decayAcc, recomputeActive]

lemma debounce_run_lh (c1 c2 : ℚ) (t1 t2 : ℤ)
    (hc1 : threshold ≤ c1) (hc2 : threshold ≤ c2)
    (ht1 : 2000 < t1) (ht12 : t1 < t2) :
    (handleNeuralClassification true "Left Hand" c1 t1 initialActionVerbs).2 = true ∧
    (getAcc (handleNeuralClassification true "Left Hand" c1 t1 initialActionVerbs).1
      ActionName.navigate).triggered = true ∧
    (getAcc (handleNeuralClassification true "Left Hand" c1 t1 initialActionVerbs).1
      ActionName.navigate).lastTriggered = t1 ∧
    ((handleNeuralClassification true "Left Hand" c2 t2
        (handleNeuralClassification true "Left Hand" c1 t1 initialActionVerbs).1).2 = true
      ↔ 2000 < t2 - t1) := by
  have hth : threshold = 0.75 := rfl
  have hc1p : (0:ℚ) < c1 := by rw [hth] at hc1; linarith
  have hc2p : (0:ℚ) < c2 := by rw [hth] at hc2; linarith
  have h01 : (0:ℚ) * 0.9 ⊔ c1 = c1 := by
    rw [zero_mul]; exact sup_eq_right.mpr (le_of_lt hc1p)
  set u1 := updateActionStates (some "Left Hand") c1 initialActionVerbs with hu1def
  have htgtc1 : u1.navigate.confidence = c1 := by
    rw [hu1def, updateActionStates_leftHand]
    show initialActionVerbs.navigate.confidence * 0.9 ⊔ c1 = c1
    rw [show initialActionVerbs.navigate.confidence = 0 from rfl, h01]
  have htgtlt1 : u1.navigate.lastTriggered = 0 := by
    rw [hu1def, updateActionStates_leftHand]; rfl
  have hoth1 : ∀ m : ActionName, m ≠ ActionName.navigate →
      (getAcc u1 m).confidence = 0 := by
    intro m hm
    rw [hu1def, updateActionStates_leftHand]
    cases m with
    | navigate => exact absurd rfl hm
    | select =>
      show initialActionVerbs.select.confidence * 0.9 = 0
      norm_num [initialActionVerbs]
    | modify =>
      show initialActionVerbs.modify.confidence * 0.9 = 0
      norm_num [initialActionVerbs]
    | create =>
      show initialActionVerbs.create.confidence * 0.9 = 0
      norm_num [initialActionVerbs]
    | delete =>
      show initialActionVerbs.delete.confidence * 0.9 = 0
      norm_num [initialActionVerbs]
  have hb1 : bestAction u1 = some ActionName.navigate := by
    apply bestAction_dominant
    · show threshold ≤ u1.navigate.confidence
      rw [htgtc1]; exact hc1
    · show (0:ℚ) < u1.navigate.confidence
      rw [htgtc1]; exact hc1p
    · intro m hm
      have := hoth1 m hm
      show (getAcc u1 m).confidence < u1.navigate.confidence
      rw [this, htgtc1]; exact hc1p
  have hfire1 : t1 - (getAcc u1 ActionName.navigate).lastTriggered > 2000 := by
    show t1 - u1.navigate.lastTriggered > 2000
    rw [htgtlt1]; omega
  have hstep1 : handleNeuralClassification true "Left Hand" c1 t1 initialActionVerbs =
      (setAcc u1 ActionName.navigate
        { getAcc u1 ActionName.navigate with triggered := true, lastTriggered := t1 },
       true) := by
    rw [handleNeuralClassification, if_pos rfl]
    simp only [hc1, ite_true, ← hu1def]
    rw [considerTriggeringAction_spec _ _ _ hb1, if_pos hfire1]
  set w1 := setAcc u1 ActionName.navigate
    { getAcc u1 ActionName.navigate with triggered := true, lastTriggered := t1 } with hw1def
  have hw1tgt : w1.navigate.confidence = c1 ∧ w1.navigate.lastTriggered = t1 ∧
      w1.navigate.triggered = true := by
    rw [hw1def]
    exact ⟨htgtc1, rfl, rfl⟩
  have hw1oth : w1.select.confidence = 0 ∧ w1.modify.confidence = 0 ∧
      w1.create.confidence = 0 ∧ w1.delete.confidence = 0 := by
    rw [hw1def]
    simp only [setAcc]
    exact ⟨hoth1 .select (by simp), hoth1 .modify (by simp),
      hoth1 .create (by simp), hoth1 .delete (by simp)⟩
  have hsup2 : threshold ≤ w1.navigate.confidence * 0.9 ⊔ c2 := le_trans hc2 le_sup_right
  have hsup2p : (0:ℚ) < w1.navigate.confidence * 0.9 ⊔ c2 := lt_of_lt_of_le hc2p le_sup_right
  set u2 := updateActionStates (some "Left Hand") c2 w1 with hu2def
  have htgtc2 : u2.navigate.confidence = w1.navigate.confidence * 0.9 ⊔ c2 := by
    rw [hu2def, updateActionStates_leftHand]
  have htgtlt2 : u2.navigate.lastTriggered = t1 := by
    rw [hu2def, updateActionStates_leftHand]
    show w1.navigate.lastTriggered = t1
    exact hw1tgt.2.1
  have hoth2 : ∀ m : ActionName, m ≠ ActionName.navigate →
      (getAcc u2 m).confidence = 0 := by
    intro m hm
    rw [hu2def, updateActionStates_leftHand]
    cases m with
    | navigate => exact absurd rfl hm
    | select =>
      show w1.select.confidence * 0.9 = 0
      rw [hw1oth.1, zero_mul]
    | modify =>
      show w1.modify.confidence * 0.9 = 0
      rw [hw1oth.2.1, zero_mul]
    | create =>
      show w1.create.confidence * 0.9 = 0
      rw [hw1oth.2.2.1, zero_mul]
    | delete =>
      show w1.delete.confidence * 0.9 = 0
      rw [hw1oth.2.2.2, zero_mul]
  have hb2 : bestAction u2 = some ActionName.navigate := by
    apply bestAction_dominant
    · show threshold ≤ u2.navigate.confidence
      rw [htgtc2]; exact hsup2
    · show (0:ℚ) < u2.navigate.confidence
      rw [htgtc2]; exact hsup2p
    · intro m hm
      have := hoth2 m hm
      show (getAcc u2 m).confidence < u2.navigate.confidence
      rw [this, htgtc2]; exact hsup2p
  refine ⟨by rw [hstep1], ?_, ?_, ?_⟩
  · rw [hstep1]
    show ({ getAcc u1 ActionName.navigate with
        triggered := true, lastTriggered := t1} : ActionAcc).triggered = true
    rfl
  · rw [hstep1]
    show ({ getAcc u1 ActionName.navigate with
        triggered := true, lastTriggered := t1} : ActionAcc).lastTriggered = t1
    rfl
  · rw [hstep1]
    show (handleNeuralClassification true "Left Hand" c2 t2 w1).2 = true ↔ 2000 < t2 - t1
    rw [handleNeuralClassification, if_pos rfl]
    simp only [hc2, ite_true, ← hu2def]
    rw [considerTriggeringAction_spec _ _ _ hb2]
    constructor
    · intro hfired
      by_contra hlt
      rw [if_neg (by simp only [getAcc_navigate]; rw [htgtlt2]; omega)] at hfired
      exact Bool.false_ne_true hfired
    · intro hlt
      rw [if_pos (by simp only [getAcc_navigate]; rw [htgtlt2]; omega)]

lemma debounce_run_feet (c1 c2 : ℚ) (t1 t2 : ℤ)
    (hc1 : threshold ≤ c1) (hc2 : threshold ≤ c2)
    (ht1 : 2000 < t1) (ht12 : t1 < t2) :
    (handleNeuralClassification true "Feet" c1 t1 initialActionVerbs).2 = true ∧
    (getAcc (handleNeuralClassification true "Feet" c1 t1 initialActionVerbs).1
      ActionName.modify).triggered = true ∧
    (getAcc (handleNeuralClassification true "Feet" c1 t1 initialActionVerbs).1
      ActionName.modify).lastTriggered = t1 ∧
    ((handleNeuralClassification true "Feet" c2 t2
        (handleNeuralClassification true "Feet" c1 t1 initialActionVerbs).1).2 = true
      ↔ 2000 < t2 - t1) := by
  have hth : threshold = 0.75 := rfl
  have hc1p : (0:ℚ) < c1 := by rw [hth] at hc1; linarith
  have hc2p : (0:ℚ) < c2 := by rw [hth] at hc2; linarith
  have h01 : (0:ℚ) * 0.9 ⊔ c1 = c1 := by
    rw [zero_mul]; exact sup_eq_right.mpr (le_of_lt hc1p)
  set u1 := updateActionStates (some "Feet") c1 initialActionVerbs with hu1def
  have htgtc1 : u1.modify.confidence = c1 := by
    rw [hu1def, updateActionStates_feet]
    show initialActionVerbs.modify.confidence * 0.9 ⊔ c1 = c1
    rw [show initialActionVerbs.modify.confidence = 0 from rfl, h01]
  have htgtlt1 : u1.modify.lastTriggered = 0 := by
    rw [hu1def, updateActionStates_feet]; rfl
  have hoth1 : ∀ m : ActionName, m ≠ ActionName.modify →
      (getAcc u1 m).confidence = 0 := by
    intro m hm
    rw [hu1def, updateActionStates_feet]
    cases m with
    | modify => exact absurd rfl hm
    | navigate =>
      show initialActionVerbs.navigate.confidence * 0.9 = 0
      norm_num [initialActionVerbs]
    | select =>
      show initialActionVerbs.select.confidence * 0.9 = 0
      norm_num [initialActionVerbs]
    | create =>
      show initialActionVerbs.create.confidence * 0.9 = 0
      norm_num [initialActionVerbs]
    | delete =>
      show initialActionVerbs.delete.confidence * 0.9 = 0
      norm_num [initialActionVerbs]
  have hb1 : bestAction u1 = some ActionName.modify := by
    apply bestAction_dominant
    · show threshold ≤ u1.modify.confidence
      rw [htgtc1]; exact hc1
    · show (0:ℚ) < u1.modify.confidence
      rw [htgtc1]; exact hc1p
    · intro m hm
      have := hoth1 m hm
      show (getAcc u1 m).confidence < u1.modify.confidence
      rw [this, htgtc1]; exact hc1p
  have hfire1 : t1 - (getAcc u1 ActionName.modify).lastTriggered > 2000 := by
    show t1 - u1.modify.lastTriggered > 2000
    rw [htgtlt1]; omega
  have hstep1 : handleNeuralClassification true "Feet" c1 t1 initialActionVerbs =
      (setAcc u1 ActionName.modify
        { getAcc u1 ActionName.modify with triggered := true, lastTriggered := t1 },
       true) := by
    rw [handleNeuralClassification, if_pos rfl]
    simp only [hc1, ite_true, ← hu1def]
    rw [considerTriggeringAction_spec _ _ _ hb1, if_pos hfire1]
  set w1 := setAcc u1 ActionName.modify
    { getAcc u1 ActionName.modify with triggered := true, lastTriggered := t1 } with hw1def
  have hw1tgt : w1.modify.confidence = c1 ∧ w1.modify.lastTriggered = t1 ∧
      w1.modify.triggered = true := by
    rw [hw1def]
    exact ⟨htgtc1, rfl, rfl⟩
  have hw1oth : w1.navigate.confidence = 0 ∧ w1.select.confidence = 0 ∧
      w1.create.confidence = 0 ∧ w1.delete.confidence = 0 := by
    rw [hw1def]
    simp only [setAcc]
    exact ⟨hoth1 .navigate (by simp), hoth1 .select (by simp),
      hoth1 .create (by simp), hoth1 .delete (by simp)⟩
  have hsup2 : threshold ≤ w1.modify.confidence * 0.9 ⊔ c2 := le_trans hc2 le_sup_right
  have hsup2p : (0:ℚ) < w1.modify.confidence * 0.9 ⊔ c2 := lt_of_lt_of_le hc2p le_sup_right
  set u2 := updateActionStates (some "Feet") c2 w1 with hu2def
  have htgtc2 : u2.modify.confidence = w1.modify.confidence * 0.9 ⊔ c2 := by
    rw [hu2def, updateActionStates_feet]
  have htgtlt2 : u2.modify.lastTriggered = t1 := by
    rw [hu2def, updateActionStates_feet]
    show w1.modify.lastTriggered = t1
    exact hw1tgt.2.1
  have hoth2 : ∀ m : ActionName, m ≠ ActionName.modify →
      (getAcc u2 m).confidence = 0 := by
    intro m hm
    rw [hu2def, updateActionStates_feet]
    cases m with
    | modify => exact absurd rfl hm
    | navigate =>
      show w1.navigate.confidence * 0.9 = 0
      rw [hw1oth.1, zero_mul]
    | select =>
      show w1.select.confidence * 0.9 = 0
      rw [hw1oth.2.1, zero_mul]
    | create =>
      show w1.create.confidence * 0.9 = 0
      rw [hw1oth.2.2.1, zero_mul]
    | delete =>
      show w1.delete.confidence * 0.9 = 0
      rw [hw1oth.2.2.2, zero_mul]
  have hb2 : bestAction u2 = some ActionName.modify := by
    apply bestAction_dominant
    · show threshold ≤ u2.modify.confidence
      rw [htgtc2]; exact hsup2
    · show (0:ℚ) < u2.modify.confidence
      rw [htgtc2]; exact hsup2p
    · intro m hm
      have := hoth2 m hm
      show (getAcc u2 m).confidence < u2.modify.confidence
      rw [this, htgtc2]; exact hsup2p
  refine ⟨by rw [hstep1], ?_, ?_, ?_⟩
  · rw [hstep1]
    show ({ getAcc u1 ActionName.modify with
        triggered := true, lastTriggered := t1} : ActionAcc).triggered = true
    rfl
  · rw [hstep1]
    show ({ getAcc u1 ActionName.modify with
        triggered := true, lastTriggered := t1} : ActionAcc).lastTriggered = t1
    rfl
  · rw [hstep1]
    show (handleNeuralClassification true "Feet" c2 t2 w1).2 = true ↔ 2000 < t2 - t1
    rw [handleNeuralClassification, if_pos rfl]
    simp only [hc2, ite_true, ← hu2def]
    rw [considerTriggeringAction_spec _ _ _ hb2]
    constructor
    · intro hfired
      by_contra hlt
      rw [if_neg (by simp only [getAcc_modify]; rw [htgtlt2]; omega)] at hfired
      exact Bool.false_ne_true hfired
    · intro hlt
      rw [if_pos (by simp only [getAcc_modify]; rw [htgtlt2]; omega)]

lemma debounce_run_tongue (c1 c2 : ℚ) (t1 t2 : ℤ)
    (hc1 : threshold ≤ c1) (hc2 : threshold ≤ c2)
    (ht1 : 2000 < t1) (ht12 : t1 < t2) :
    (handleNeuralClassification true "Tongue" c1 t1 initialActionVerbs).2 = true ∧
    (getAcc (handleNeuralClassification true "Tongue" c1 t1 initialActionVerbs).1
      ActionName.select).triggered = true ∧
    (getAcc (handleNeuralClassification true "Tongue" c1 t1 initialActionVerbs).1
      ActionName.select).lastTriggered = t1 ∧
    ((handleNeuralClassification true "Tongue" c2 t2
        (handleNeuralClassification true "Tongue" c1 t1 initialActionVerbs).1).2 = true
      ↔ 2000 < t2 - t1) := by
  have hth : threshold = 0.75 := rfl
  have hc1p : (0:ℚ) < c1 := by rw [hth] at hc1; linarith
  have hc2p : (0:ℚ) < c2 := by rw [hth] at hc2; linarith
  have h01 : (0:ℚ) * 0.9 ⊔ c1 = c1 := by
    rw [zero_mul]; exact sup_eq_right.mpr (le_of_lt hc1p)
  have h01m : (0:ℚ) * 0.9 ⊔ c1 * 0.8 = c1 * 0.8 := by
    rw [zero_mul]; exact sup_eq_right.mpr (by nlinarith)
  set u1 := updateActionStates (some "Tongue") c1 initialActionVerbs with hu1def
  have hselc1 : u1.select.confidence = c1 := by
    rw [hu1def, updateActionStates_tongue]
    show initialActionVerbs.select.confidence * 0.9 ⊔ c1 = c1
    rw [show initialActionVerbs.select.confidence = 0 from rfl, h01]
  have hmodc1 : u1.modify.confidence = c1 * 0.8 := by
    rw [hu1def, updateActionStates_tongue]
    show initialActionVerbs.modify.confidence * 0.9 ⊔ c1 * 0.8 = c1 * 0.8
    rw [show initialActionVerbs.modify.confidence = 0 from rfl, h01m]
  have hsellt1 : u1.select.lastTriggered = 0 := by
    rw [hu1def, updateActionStates_tongue]; rfl
  have hnav1 : u1.navigate.confidence = 0 := by
    rw [hu1def, updateActionStates_tongue]
    show initialActionVerbs.navigate.confidence * 0.9 = 0
    norm_num [initialActionVerbs]
  have hcre1 : u1.create.confidence = 0 := by
    rw [hu1def, updateActionStates_tongue]
    show initialActionVerbs.create.confidence * 0.9 = 0
    norm_num [initialActionVerbs]
  have hdel1 : u1.delete.confidence = 0 := by
    rw [hu1def, updateActionStates_tongue]
    show initialActionVerbs.delete.confidence * 0.9 = 0
    norm_num [initialActionVerbs]
  have hb1 : bestAction u1 = some ActionName.select := by
    apply bestAction_dominant
    · show threshold ≤ u1.select.confidence
      rw [hselc1]; exact hc1
    · show (0:ℚ) < u1.select.confidence
      rw [hselc1]; exact hc1p
    · intro m hm
      cases m with
      | select => exact absurd rfl hm
      | navigate =>
        show u1.navigate.confidence < u1.select.confidence
        rw [hnav1, hselc1]; exact hc1p
      | modify =>
        show u1.modify.confidence < u1.select.confidence
        rw [hmodc1, hselc1]; nlinarith
      | create =>
        show u1.create.confidence < u1.select.confidence
        rw [hcre1, hselc1]; exact hc1p
      | delete =>
        show u1.delete.confidence < u1.select.confidence
        rw [hdel1, hselc1]; exact hc1p
  have hfire1 : t1 - (getAcc u1 ActionName.select).lastTriggered > 2000 := by
    show t1 - u1.select.lastTriggered > 2000
    rw [hsellt1]; omega
  have hstep1 : handleNeuralClassification true "Tongue" c1 t1 initialActionVerbs =
      (setAcc u1 ActionName.select
        { getAcc u1 ActionName.select with triggered := true, lastTriggered := t1 },
       true) := by
    rw [handleNeuralClassification, if_pos rfl]
    simp only [hc1, ite_true, ← hu1def]
    rw [considerTriggeringAction_spec _ _ _ hb1, if_pos hfire1]
  set w1 := setAcc u1 ActionName.select
    { getAcc u1 ActionName.select with triggered := true, lastTriggered := t1 } with hw1def
  have hw1sel : w1.select.confidence = c1 ∧ w1.select.lastTriggered = t1 := by
    rw [hw1def]
    exact ⟨hselc1, rfl⟩
  have hw1mod : w1.modify.confidence = c1 * 0.8 := by
    rw [hw1def]; simp only [setAcc]; exact hmodc1
  have hw1nav : w1.navigate.confidence = 0 := by
    rw [hw1def]; simp only [setAcc]; exact hnav1
  have hw1cre : w1.create.confidence = 0 := by
    rw [hw1def]; simp only [setAcc]; exact hcre1
  have hw1del : w1.delete.confidence = 0 := by
    rw [hw1def]; simp only [setAcc]; exact hdel1
  have hsup2 : threshold ≤ w1.select.confidence * 0.9 ⊔ c2 := le_trans hc2 le_sup_right
  have hsup2p : (0:ℚ) < w1.select.confidence * 0.9 ⊔ c2 := lt_of_lt_of_le hc2p le_sup_right
  set u2 := updateActionStates (some "Tongue") c2 w1 with hu2def
  have hselc2 : u2.select.confidence = w1.select.confidence * 0.9 ⊔ c2 := by
    rw [hu2def, updateActionStates_tongue]
  have hsellt2 : u2.select.lastTriggered = t1 := by
    rw [hu2def, updateActionStates_tongue]
    show w1.select.lastTriggered = t1
    exact hw1sel.2
  have hmod2 : u2.modify.confidence = w1.modify.confidence * 0.9 ⊔ c2 * 0.8 := by
    rw [hu2def, updateActionStates_tongue]
  have hnav2 : u2.navigate.confidence = 0 := by
    rw [hu2def, updateActionStates_tongue]
    show w1.navigate.confidence * 0.9 = 0
    rw [hw1nav, zero_mul]
  have hcre2 : u2.create.confidence = 0 := by
    rw [hu2def, updateActionStates_tongue]
    show w1.create.confidence * 0.9 = 0
    rw [hw1cre, zero_mul]
  have hdel2 : u2.delete.confidence = 0 := by
    rw [hu2def, updateActionStates_tongue]
    show w1.delete.confidence * 0.9 = 0
    rw [hw1del, zero_mul]
  have hb2 : bestAction u2 = some ActionName.select := by
    apply bestAction_dominant
    · show threshold ≤ u2.select.confidence
      rw [hselc2]; exact hsup2
    · show (0:ℚ) < u2.select.confidence
      rw [hselc2]; exact hsup2p
    · intro m hm
      cases m with
      | select => exact absurd rfl hm
      | navigate =>
        show u2.navigate.confidence < u2.select.confidence
        rw [hnav2, hselc2]; exact hsup2p
      | modify =>
        show u2.modify.confidence < u2.select.confidence
        rw [hmod2, hselc2, hw1mod, hw1sel.1]
        refine sup_lt_iff.mpr ⟨?_, ?_⟩
        · exact lt_of_lt_of_le (by nlinarith) le_sup_left
        · exact lt_of_lt_of_le (by nlinarith) le_sup_right
      | create =>
        show u2.create.confidence < u2.select.confidence
        rw [hcre2, hselc2]; exact hsup2p
      | delete =>
        show u2.delete.confidence < u2.select.confidence
        rw [hdel2, hselc2]; exact hsup2p
  refine ⟨by rw [hstep1], ?_, ?_, ?_⟩
  · rw [hstep1]
    show ({ getAcc u1 ActionName.select with
        triggered := true, lastTriggered := t1} : ActionAcc).triggered = true
    rfl
  · rw [hstep1]
    show ({ getAcc u1 ActionName.select with
        triggered := true, lastTriggered := t1} : ActionAcc).lastTriggered = t1
    rfl
  · rw [hstep1]
    show (handleNeuralClassification true "Tongue" c2 t2 w1).2 = true ↔ 2000 < t2 - t1
    rw [handleNeuralClassification, if_pos rfl]
    simp only [hc2, ite_true, ← hu2def]
    rw [considerTriggeringAction_spec _ _ _ hb2]
    constructor
    · intro hfired
      by_contra hlt
      rw [if_neg (by simp only [getAcc_select]; rw [hsellt2]; omega)] at hfired
      exact Bool.false_ne_true hfired
    · intro hlt
      rw [if_pos (by simp only [getAcc_select]; rw [hsellt2]; omega)]

/-- C3 amended: for two qualifying events (confidence ≥ 0.75) of the same
triggering class processed from the initial state, the first fires a trigger
(setting `triggered := true` and `lastTriggered := t1` on the routed
accumulator), and the second fires iff the events are strictly more than
2000 ms apart; at 2000 ms or less the second qualifying event is dropped. -/
theorem trigger_debounce_amended (cls : String) (c1 c2 : ℚ) (t1 t2 : ℤ)
    (hcls : cls = "Left Hand" ∨ cls = "Right Hand" ∨ cls = "Feet" ∨ cls = "Tongue")
    (hc1 : threshold ≤ c1) (hc2 : threshold ≤ c2)
    (ht1 : 2000 < t1) (ht12 : t1 < t2) :
    (handleNeuralClassification true cls c1 t1 initialActionVerbs).2 = true ∧
    (getAcc (handleNeuralClassification true cls c1 t1 initialActionVerbs).1
      (routedAction cls)).triggered = true ∧
    (getAcc (handleNeuralClassification true cls c1 t1 initialActionVerbs).1
      (routedAction cls)).lastTriggered = t1 ∧
    ((handleNeuralClassification true cls c2 t2
        (handleNeuralClassification true cls c1 t1 initialActionVerbs).1).2 = true
      ↔ 2000 < t2 - t1) := by
  rcases hcls with rfl | rfl | rfl | rfl
  · simpa [routedAction] using debounce_run_lh c1 c2 t1 t2 hc1 hc2 ht1 ht12
  · simpa [routedAction] using debounce_run_rh c1 c2 t1 t2 hc1 hc2 ht1 ht12
  · simpa [routedAction] using debounce_run_feet c1 c2 t1 t2 hc1 hc2 ht1 ht12
  · simpa [routedAction] using debounce_run_tongue c1 c2 t1 t2 hc1 hc2 ht1 ht12

/-- C3 counterexample: two qualifying Right Hand events (confidence 0.8 ≥
0.75) exactly 2000 ms apart fire exactly one trigger, because the code
requires `now - lastTriggered > 2000` strictly — refuting the claim that two
events 2000 ms or more apart fire two triggers. -/
theorem trigger_debounce_counterexample :
    threshold ≤ (0.8:ℚ) ∧
    (12000:ℤ) - 10000 ≥ 2000 ∧
    (handleNeuralClassification true "Right Hand" 0.8 10000 initialActionVerbs).2 = true ∧
    (handleNeuralClassification true "Right Hand" 0.8 12000
       (handleNeuralClassification true "Right Hand" 0.8 10000 initialActionVerbs).1).2
      = false := by
  have h := debounce_run_rh 0.8 0.8 10000 12000 (by norm_num [threshold])
    (by norm_num [threshold]) (by norm_num) (by norm_num)
  refine ⟨by norm_num [threshold], by norm_num, h.1, ?_⟩
  have h4 := h.2.2.2
  norm_num at h4 ⊢
  exact h4

/-- Witness for `trigger_debounce_amended`: Right Hand events at 10000 and
13000 ms. -/
theorem trigger_debounce_witness :
    (("Right Hand" : String) = "Left Hand" ∨ ("Right Hand" : String) = "Right Hand" ∨
      ("Right Hand" : String) = "Feet" ∨ ("Right Hand" : String) = "Tongue") ∧
    threshold ≤ (0.8:ℚ) ∧ (2000:ℤ) < 10000 ∧ (10000:ℤ) < 13000 ∧
    ((handleNeuralClassification true "Right Hand" 0.8 10000 initialActionVerbs).2 = true ∧
     (getAcc (handleNeuralClassification true "Right Hand" 0.8 10000 initialActionVerbs).1
       (routedAction "Right Hand")).triggered = true ∧
     (getAcc (handleNeuralClassification true "Right Hand" 0.8 10000 initialActionVerbs).1
       (routedAction "Right Hand")).lastTriggered = 10000 ∧
     ((handleNeuralClassification true "Right Hand" 0.8 13000
         (handleNeuralClassification true "Right Hand" 0.8 10000 initialActionVerbs).1).2 = true
       ↔ (2000:ℤ) < 13000 - 10000)) :=
  ⟨Or.inr (Or.inl rfl), by norm_num [threshold], by norm_num, by norm_num,
   trigger_debounce_amended "Right Hand" 0.8 0.8 10000 13000 (Or.inr (Or.inl rfl))
     (by norm_num [threshold]) (by norm_num [threshold]) (by norm_num) (by norm_num)⟩

lemma addDecodedPosition_actual (d : DecoderData) (a p : Point) (t : ℚ)
    (v : Option (Point × Point)) :
    (addDecodedPosition d a p t v).actual = pushBounded d.actual a := by
  simp only [addDecodedPosition, pushBounded]
  split_ifs <;> rfl

lemma runAdds_actual (calls : List AddCall) (d : DecoderData) :
    (runAdds calls d).actual = calls.foldl (fun l c => pushBounded l c.actual) d.actual := by
  induction calls generalizing d with
  | nil => rfl
  | cons c cs ih =>
    show (runAdds cs (addDecodedPosition d c.actual c.predicted c.timestamp c.vel)).actual = _
    rw [ih (addDecodedPosition d c.actual c.predicted c.timestamp c.vel),
      addDecodedPosition_actual]
    rfl

lemma foldl_pushBounded_drop (ps : List Point) :
    ∀ l : List Point, l.length ≤ 100 →
      ps.foldl pushBounded l = (l ++ ps).drop (l.length + ps.length - 100) := by
  induction ps with
  | nil =>
    intro l h
    simp [Nat.sub_eq_zero_of_le h]
  | cons p ps ih =>
    intro l h
    show ps.foldl pushBounded (pushBounded l p) = _
    by_cases hlen : l.length < 100
    · have hpb : pushBounded l p = l ++ [p] := by
        unfold pushBounded
        rw [if_neg (by simp only [List.length_append, List.length_singleton]; omega)]
      rw [hpb, ih (l ++ [p]) (by simp only [List.length_append, List.length_singleton]; omega)]
      rw [List.append_assoc, List.singleton_append]
      simp only [List.length_append, List.length_singleton, List.length_cons,
        List.length_nil]
      congr 1
      omega
    · have hl100 : l.length = 100 := by omega
      have hpb : pushBounded l p = (l ++ [p]).drop 1 := by
        unfold pushBounded
        rw [if_pos (by simp only [List.length_append, List.length_singleton]; omega),
          List.drop_one]
      have hlen' : ((l ++ [p]).drop 1).length = 100 := by simp [hl100]
      rw [hpb, ih _ (le_of_eq hlen'), hlen']
      rw [← List.drop_append_of_le_length (show (1:ℕ) ≤ (l ++ [p]).length by simp)]
      rw [List.drop_drop, List.append_assoc, List.singleton_append]
      simp only [List.length_cons, List.length_nil]
      congr 1
      omega

/-- C6: the trajectory buffer is bounded by 100 for any call sequence from a
state within bounds; on overflow the oldest point is evicted (FIFO: the
result is the tail of the appended list); and pushing any 150 points into the
empty buffer leaves exactly the last 100 pushed points, in insertion order. -/
theorem trajectory_buffer_bounded (calls : List AddCall) (d0 : DecoderData)
    (h0 : d0.actual.length ≤ 100) (ps : List AddCall) (h150 : ps.length = 150) :
    (runAdds calls d0).actual.length ≤ 100 ∧
    (∀ (d : DecoderData) (a p : Point) (t : ℚ) (v : Option (Point × Point)),
      d.actual.length = 100 →
      (addDecodedPosition d a p t v).actual = (d.actual ++ [a]).tail) ∧
    (runAdds ps emptyDecoderData).actual.length = 100 ∧
    (runAdds ps emptyDecoderData).actual = (ps.map (·.actual)).drop 50 := by
  have hrun : ∀ (cs : List AddCall) (d : DecoderData),
      (runAdds cs d).actual = (cs.map (·.actual)).foldl pushBounded d.actual := by
    intro cs d
    rw [runAdds_actual, List.foldl_map]
  have hfold : ∀ (cs : List AddCall) (l : List Point), l.length ≤ 100 →
      (cs.map (·.actual)).foldl pushBounded l =
        (l ++ cs.map (·.actual)).drop (l.length + cs.length - 100) := by
    intro cs l hl
    rw [foldl_pushBounded_drop (cs.map (·.actual)) l hl]
    simp
  have hempty : emptyDecoderData.actual = [] := rfl
  refine ⟨?_, ?_, ?_, ?_⟩
  · rw [hrun calls d0, hfold calls d0.actual h0]
    simp only [List.length_drop, List.length_append, List.length_map]
    omega
  · intro d a p t v hd
    rw [addDecodedPosition_actual]
    unfold pushBounded
    rw [if_pos (by simp [hd])]
  · rw [hrun ps emptyDecoderData, hempty, hfold ps [] (by simp)]
    simp [h150]
  · rw [hrun ps emptyDecoderData, hempty, hfold ps [] (by simp)]
    simp [h150]

/-- Witness for `trajectory_buffer_bounded`: the empty start state and 150
identical calls. -/
theorem trajectory_buffer_bounded_witness :
    (emptyDecoderData.actual.length ≤ 100 ∧
     (List.replicate 150 (AddCall.mk (0, 0) (0, 0) 0 none)).length = 150) ∧
    ((runAdds [] emptyDecoderData).actual.length ≤ 100 ∧
     (∀ (d : DecoderData) (a p : Point) (t : ℚ) (v : Option (Point × Point)),
       d.actual.length = 100 →
       (addDecodedPosition d a p t v).actual = (d.actual ++ [a]).tail) ∧
     (runAdds (List.replicate 150 (AddCall.mk (0, 0) (0, 0) 0 none))
        emptyDecoderData).actual.length = 100 ∧
     (runAdds (List.replicate 150 (AddCall.mk (0, 0) (0, 0) 0 none))
        emptyDecoderData).actual =
       ((List.replicate 150 (AddCall.mk (0, 0) (0, 0) 0 none)).map (·.actual)).drop 50) :=
  ⟨⟨by simp [emptyDecoderData], by simp⟩,
   trajectory_buffer_bounded [] emptyDecoderData (by simp [emptyDecoderData])
     (List.replicate 150 (AddCall.mk (0, 0) (0, 0) 0 none)) (by simp)⟩

/-- C5: the bridge publishes iff the lookup table maps the class and the
confidence exceeds 0.65; the published payload echoes the incoming
confidence; the table sends Left Hand→left, Right Hand→right, Feet→down,
Tongue→up, and Rest — like every unlisted class — to none. -/
theorem movement_bridge_gate (cls : String) (conf : ℚ) :
    (classificationToMovementBridge cls conf =
      if conf > 0.65 then
        Option.map (fun d => MovementRequest.mk d conf "neural-processor")
          (classToDirection cls)
      else none) ∧
    ((classificationToMovementBridge cls conf).isSome ↔
      (classToDirection cls).isSome ∧ conf > 0.65) ∧
    classToDirection "Left Hand" = some "left" ∧
    classToDirection "Right Hand" = some "right" ∧
    classToDirection "Feet" = some "down" ∧
    classToDirection "Tongue" = some "up" ∧
    classToDirection "Rest" = none ∧
    (cls ∉ ["Left Hand", "Right Hand", "Feet", "Tongue"] →
      classToDirection cls = none) := by
  refine ⟨?_, ?_, by simp [classToDirection], by simp [classToDirection],
    by simp [classToDirection], by simp [classToDirection],
    by simp [classToDirection], ?_⟩
  · cases hcd : classToDirection cls with
    | none => simp [classificationToMovementBridge, hcd]
    | some d =>
      simp only [classificationToMovementBridge, hcd, Option.map_some]
      split_ifs <;> rfl
  · cases hcd : classToDirection cls with
    | none => simp [classificationToMovementBridge, hcd]
    | some d =>
      simp only [classificationToMovementBridge, hcd]
      split_ifs with hc <;> simp [hc]
  · intro hmem
    simp only [List.mem_cons, List.not_mem_nil, or_false, not_or] at hmem
    obtain ⟨h1, h2, h3, h4⟩ := hmem
    simp [classToDirection, h1, h2, h3, h4]

/-- Witness for `movement_bridge_gate` at the Rest class. -/
theorem movement_bridge_gate_witness :
    (classificationToMovementBridge "Rest" 0.9 =
      if (0.9:ℚ) > 0.65 then
        Option.map (fun d => MovementRequest.mk d 0.9 "neural-processor")
          (classToDirection "Rest")
      else none) ∧
    ((classificationToMovementBridge "Rest" 0.9).isSome ↔
      (classToDirection "Rest").isSome ∧ (0.9:ℚ) > 0.65) ∧
    classToDirection "Left Hand" = some "left" ∧
    classToDirection "Right Hand" = some "right" ∧
    classToDirection "Feet" = some "down" ∧
    classToDirection "Tongue" = some "up" ∧
    classToDirection "Rest" = none ∧
    (("Rest" : String) ∉ ["Left Hand", "Right Hand", "Feet", "Tongue"] →
      classToDirection "Rest" = none) :=
  movement_bridge_gate "Rest" 0.9

lemma clampMetrics_ranges (m : DecoderMetrics) :
    0.5 ≤ (clampMetrics m).accuracy ∧ (clampMetrics m).accuracy ≤ 0.98 ∧
    0.01 ≤ (clampMetrics m).mse ∧
    0.4 ≤ (clampMetrics m).r2 ∧ (clampMetrics m).r2 ≤ 0.98 ∧
    0.5 ≤ (clampMetrics m).correlation ∧ (clampMetrics m).correlation ≤ 0.99 := by
  unfold clampMetrics
  refine ⟨le_min (by norm_num) (le_max_left _ _), min_le_left _ _,
    le_max_left _ _,
    le_min (by norm_num) (le_max_left _ _), min_le_left _ _,
    le_min (by norm_num) (le_max_left _ _), min_le_left _ _⟩

/-- C7: for every model id and trajectory type, the recomputed metrics are
clamped into accuracy ∈ [0.5, 0.98], mse ≥ 0.01, r2 ∈ [0.4, 0.98] and
correlation ∈ [0.5, 0.99]. -/
theorem decoder_metrics_clamped (modelId trajectoryType : String) :
    0.5 ≤ (updateDecoderModelMetrics modelId trajectoryType).accuracy ∧
    (updateDecoderModelMetrics modelId trajectoryType).accuracy ≤ 0.98 ∧
    0.01 ≤ (updateDecoderModelMetrics modelId trajectoryType).mse ∧
    0.4 ≤ (updateDecoderModelMetrics modelId trajectoryType).r2 ∧
    (updateDecoderModelMetrics modelId trajectoryType).r2 ≤ 0.98 ∧
    0.5 ≤ (updateDecoderModelMetrics modelId trajectoryType).correlation ∧
    (updateDecoderModelMetrics modelId trajectoryType).correlation ≤ 0.99 :=
  clampMetrics_ranges _

lemma jsReduceAdd_eq_sum (l : List ℚ) : jsReduceAdd l = l.sum := by
  rw [jsReduceAdd, List.sum_eq_foldl]

lemma sum_map_div (l : List ℚ) (c : ℚ) :
    (l.map (fun v => v / c)).sum = l.sum / c := by
  induction l with
  | nil => simp
  | cons x xs ih => simp [ih, add_div]

/-- C8 counterexample: `Math.random()` may return 0 (its contract is
`[0, 1)`), and an all-zero draw stream makes every row sum 0, not 1, because
the normalization divides by a zero row sum. -/
theorem attention_rows_counterexample :
    (∀ h i j : ℕ, 0 ≤ (fun _ _ _ => (0:ℚ)) h i j ∧ (fun _ _ _ => (0:ℚ)) h i j < 1) ∧
    ¬ rowStochastic (generateRandomAttentionMatrix (fun _ _ _ => 0) 1) := by
  constructor
  · intro h i j
    exact ⟨le_refl 0, by norm_num⟩
  · intro hrs
    have hmat : ((List.range sequenceLength).map fun i =>
        normalizeRow ((List.range sequenceLength).map fun _ => (0:ℚ))) ∈
        generateRandomAttentionMatrix (fun _ _ _ => 0) 1 := by
      simp [generateRandomAttentionMatrix]
    have hrow : normalizeRow ((List.range sequenceLength).map fun _ => (0:ℚ)) ∈
        ((List.range sequenceLength).map fun i =>
          normalizeRow ((List.range sequenceLength).map fun _ => (0:ℚ))) := by
      exact List.mem_map.mpr ⟨0, by simp [sequenceLength], rfl⟩
    have h1 := hrs _ hmat _ hrow
    rw [jsReduceAdd_eq_sum, normalizeRow, sum_map_div] at h1
    simp at h1

/-- C8 amended: when every row's draw total is positive (true of any stream
with at least one nonzero draw per row; an all-zero row is the only
exception), every row of every generated attention matrix sums to exactly 1. -/
theorem attention_rows_sum_one (rand : ℕ → ℕ → ℕ → ℚ) (numHeads : ℕ)
    (hpos : ∀ h i : ℕ,
      0 < jsReduceAdd ((List.range sequenceLength).map fun j => rand h i j)) :
    rowStochastic (generateRandomAttentionMatrix rand numHeads) := by
  intro mat hmat row hrow
  rw [generateRandomAttentionMatrix] at hmat
  obtain ⟨h, _, rfl⟩ := List.mem_map.mp hmat
  obtain ⟨i, _, rfl⟩ := List.mem_map.mp hrow
  have hs : jsReduceAdd ((List.range sequenceLength).map fun j => rand h i j) ≠ 0 :=
    ne_of_gt (hpos h i)
  rw [jsReduceAdd_eq_sum, normalizeRow, sum_map_div, ← jsReduceAdd_eq_sum]
  exact div_self hs

/-- Witness for `attention_rows_sum_one` at the constant stream 1/2. -/
theorem attention_rows_sum_one_witness :
    (∀ h i : ℕ, 0 < jsReduceAdd ((List.range sequenceLength).map
      fun j => (fun _ _ _ => (0.5:ℚ)) h i j)) ∧
    rowStochastic (generateRandomAttentionMatrix (fun _ _ _ => 0.5) 1) :=
  ⟨fun h i => by norm_num [jsReduceAdd_eq_sum, sequenceLength],
   attention_rows_sum_one _ 1
     (fun h i => by norm_num [jsReduceAdd_eq_sum, sequenceLength])⟩

/-- C9: when `runImpedanceCheck` completes, every electrode's impedance is in
`[5, 40]`, its status agrees with the threshold table at its new impedance,
and its signal quality is re-derived from the new impedance (the code's
bucketed ranges, given the `Math.random()` contract `0 ≤ r < 1`). -/
theorem impedance_check_ranges (rand : ℕ → ℚ × ℚ) (es : List Electrode)
    (hr : ∀ i, 0 ≤ (rand i).2 ∧ (rand i).2 < 1) :
    ∀ e ∈ runImpedanceCheck rand es,
      (5 ≤ e.impedance ∧ e.impedance ≤ 40) ∧
      e.status = statusFromImpedance e.impedance ∧
      ((e.impedance < 15 → 90 ≤ e.signal ∧ e.signal < 100) ∧
       (15 ≤ e.impedance → e.impedance < 20 → 80 ≤ e.signal ∧ e.signal < 90) ∧
       (20 ≤ e.impedance → 70 ≤ e.signal ∧ e.signal < 80)) := by
  intro e he
  rw [runImpedanceCheck] at he
  obtain ⟨⟨i, e0⟩, _, rfl⟩ := List.mem_map.mp he
  obtain ⟨hr0, hr1⟩ := hr i
  unfold impedanceCheckElectrode
  simp only []
  set imp := max 5 (min 40 (e0.impedance + ((rand i).1 - 0.5) * 10)) with himp
  have h5 : 5 ≤ imp := le_max_left _ _
  have h40 : imp ≤ 40 := max_le (by norm_num) (min_le_left _ _)
  split_ifs with h10 h15 h20
  · refine ⟨⟨h5, h40⟩, ?_, ?_, ?_, ?_⟩
    · rw [statusFromImpedance, if_pos (by simp only []; linarith)]
    · intro _
      constructor <;> simp only [] <;> nlinarith
    · intro hge _
      simp only [] at hge
      linarith
    · intro hge
      simp only [] at hge
      linarith
  · refine ⟨⟨h5, h40⟩, ?_, ?_, ?_, ?_⟩
    · rw [statusFromImpedance, if_pos (by simp only []; linarith)]
    · intro _
      constructor <;> simp only [] <;> nlinarith
    · intro hge _
      simp only [] at hge
      linarith
    · intro hge
      simp only [] at hge
      linarith
  · refine ⟨⟨h5, h40⟩, ?_, ?_, ?_, ?_⟩
    · rw [statusFromImpedance, if_neg (by simp only []; linarith),
        if_pos (by simp only []; exact h20)]
    · intro hlt
      simp only [] at hlt
      linarith
    · intro _ _
      constructor <;> simp only [] <;> nlinarith
    · intro hge
      simp only [] at hge
      linarith
  · refine ⟨⟨h5, h40⟩, ?_, ?_, ?_, ?_⟩
    · rw [statusFromImpedance, if_neg (by simp only []; linarith),
        if_neg (by simp only []; linarith)]
    · intro hlt
      simp only [] at hlt
      linarith
    · intro _ hlt
      simp only [] at hlt
      linarith
    · intro _
      constructor <;> simp only [] <;> nlinarith

/-- Witness for `impedance_check_ranges` on the initial electrode table with
both draws fixed at 1/2. -/
theorem impedance_check_ranges_witness :
    (∀ i : ℕ, 0 ≤ ((fun _ => ((0.5:ℚ), (0.5:ℚ))) i).2 ∧
      ((fun _ => ((0.5:ℚ), (0.5:ℚ))) i).2 < 1) ∧
    (∀ e ∈ runImpedanceCheck (fun _ => (0.5, 0.5)) initialElectrodes,
      (5 ≤ e.impedance ∧ e.impedance ≤ 40) ∧
      e.status = statusFromImpedance e.impedance ∧
      ((e.impedance < 15 → 90 ≤ e.signal ∧ e.signal < 100) ∧
       (15 ≤ e.impedance → e.impedance < 20 → 80 ≤ e.signal ∧ e.signal < 90) ∧
       (20 ≤ e.impedance → 70 ≤ e.signal ∧ e.signal < 80))) :=
  ⟨fun i => by norm_num,
   impedance_check_ranges (fun _ => (0.5, 0.5)) initialElectrodes
     (fun i => by norm_num)⟩
